import Mathlib

/-!
Verification of giffer (main.go): a tool that walks a directory for JPEG
files, decodes and quantizes them concurrently, and assembles an animated
GIF. The definitions below are a shallow embedding of the functions in
src/main.go; external collaborators (the JPEG codec, the median-cut
quantizer, the file system) are passed in as parameters.
-/

namespace Giffer

/-- Model of image.Paletted from the Go image package: per-pixel palette
indices, a stride, bounds, and a color lookup table. -/
structure Paletted where
  pix : List Nat
  stride : Nat
  rect : Nat × Nat × Nat × Nat
  palette : List (Nat × Nat × Nat × Nat)
deriving DecidableEq

/-- Model of a non-paletted image.Image value: bounds plus direct pixel
colors. -/
structure OtherImage where
  rect : Nat × Nat × Nat × Nat
  pixels : List (Nat × Nat × Nat × Nat)
deriving DecidableEq

/-- Model of the image.Image interface as consumed by imageToPaletted: the
dynamic type test img.(*image.Paletted) distinguishes exactly these two
cases. -/
inductive Image where
  | paletted (pm : Paletted)
  | other (o : OtherImage)
deriving DecidableEq

/-- Embedding of imageToPaletted (main.go lines 29-38). The type assertion
succeeds on a Paletted and returns it unchanged; otherwise the external
gogif median-cut quantizer, modelled by the parameter quantize, produces a
Paletted over the bounds of the image. -/
def imageToPaletted (quantize : OtherImage → Paletted) : Image → Paletted
  | Image.paletted pm => pm
  | Image.other o => quantize o

/-- Outcome of os.Open followed by jpeg.Decode for one path, supplied by
the environment: the open can fail, the decode can fail, or a decoded
image is produced. -/
inductive JpegFile where
  | openErr
  | decodeErr
  | ok (img : Image)
deriving DecidableEq

/-- Embedding of processJpeg (main.go lines 40-55): on open or decode
failure it returns a nil frame (none); on success it returns the quantized
image. -/
def processJpeg (fs : String → JpegFile) (quantize : OtherImage → Paletted)
    (path : String) : Option Paletted :=
  match fs path with
  | JpegFile.openErr => none
  | JpegFile.decodeErr => none
  | JpegFile.ok img => some (imageToPaletted quantize img)

/-- Claim C8: quantization is idempotent. Applying imageToPaletted to a
frame that is already palette-indexed with at most 256 colors returns the
identical frame unchanged, hence converting twice equals converting
once. -/
theorem imageToPaletted_idempotent (quantize : OtherImage → Paletted)
    (pm : Paletted) (_hpal : pm.palette.length ≤ 256) :
    imageToPaletted quantize (Image.paletted pm) = pm ∧
    ∀ img : Image,
      imageToPaletted quantize (Image.paletted (imageToPaletted quantize img)) =
        imageToPaletted quantize img := by
  refine ⟨rfl, ?_⟩
  intro img
  cases img <;> rfl

/-- Witness for imageToPaletted_idempotent at a concrete one-pixel paletted
frame and the identity-shaped quantizer. -/
theorem imageToPaletted_idempotent_witness :
    imageToPaletted (fun o => ⟨[], 0, o.rect, []⟩)
        (Image.paletted ⟨[0], 1, (0, 0, 1, 1), [(0, 0, 0, 255)]⟩) =
      ⟨[0], 1, (0, 0, 1, 1), [(0, 0, 0, 255)]⟩ :=
  (imageToPaletted_idempotent (fun o => ⟨[], 0, o.rect, []⟩)
    ⟨[0], 1, (0, 0, 1, 1), [(0, 0, 0, 255)]⟩ (by decide)).1

/-- Model of the gif.GIF structure as populated by main (main.go lines
137-139): a frame slice whose entries may be nil, and a parallel delay
slice. -/
structure GifInfo where
  image : List (Option Paletted)
  delay : List Nat
deriving DecidableEq

/-- Initial gif.GIF of main.go lines 138-139: make allocates
len(imgPaths) nil frame pointers and len(imgPaths) zero delays. -/
def initGifInfo (n : Nat) : GifInfo :=
  ⟨List.replicate n none, List.replicate n 0⟩

/-- Mutex-guarded body of one worker goroutine (main.go lines 156-173):
decode path number i, then write the frame (nil on failure) and the
uniform delay into slot i of the shared gif structure. -/
def taskBody (fs : String → JpegFile) (quantize : OtherImage → Paletted)
    (delayMs : Nat) (paths : List String) (g : GifInfo) (i : Nat) : GifInfo :=
  ⟨g.image.set i (processJpeg fs quantize (paths.getD i "")),
   g.delay.set i (delayMs / 10)⟩

/-- The concurrent pipeline of main.go lines 154-175: one task per path,
applied in an arbitrary completion order given by the list order of task
indices. Because slot writes are index-addressed and mutex-serialized, a
run of the real program corresponds to some interleaving, i.e. some
permutation of the task indices. -/
def runPipeline (fs : String → JpegFile) (quantize : OtherImage → Paletted)
    (delayMs : Nat) (paths : List String) (order : List Nat) : GifInfo :=
  order.foldl (taskBody fs quantize delayMs paths) (initGifInfo paths.length)

/-- Folding index-addressed writes preserves the length of the slot
array. -/
theorem foldl_set_length {α : Type} (v : Nat → α) :
    ∀ (order : List Nat) (acc : List α),
      (order.foldl (fun a j => a.set j (v j)) acc).length = acc.length
  | [], _ => rfl
  | j :: rest, acc => by
    rw [List.foldl_cons, foldl_set_length v rest, List.length_set]

/-- Slots whose index never occurs in the completion order keep their
initial content. -/
theorem foldl_set_getElem?_not_mem {α : Type} (v : Nat → α) :
    ∀ (order : List Nat) (acc : List α) (i : Nat), i ∉ order →
      (order.foldl (fun a j => a.set j (v j)) acc)[i]? = acc[i]?
  | [], _, _, _ => rfl
  | j :: rest, acc, i, h => by
    rw [List.foldl_cons,
      foldl_set_getElem?_not_mem v rest _ i (fun hm => h (List.mem_cons_of_mem j hm))]
    exact List.getElem?_set_ne
      (fun hji => h (by rw [← hji]; exact List.mem_cons_self j rest))

/-- Key slot lemma: if index i occurs anywhere in the completion order
then the final array holds value v i at slot i, independent of where in
the order the write happened. -/
theorem foldl_set_getElem?_mem {α : Type} (v : Nat → α) :
    ∀ (order : List Nat) (acc : List α) (i : Nat), i < acc.length → i ∈ order →
      (order.foldl (fun a j => a.set j (v j)) acc)[i]? = some (v i)
  | [], _, _, _, hm => absurd hm (List.not_mem_nil _)
  | j :: rest, acc, i, hlen, hm => by
    rw [List.foldl_cons]
    by_cases hr : i ∈ rest
    · exact foldl_set_getElem?_mem v rest _ i (by simpa using hlen) hr
    · have hij : i = j := by
        rcases List.mem_cons.mp hm with h | h
        · exact h
        · exact absurd h hr
      subst hij
      rw [foldl_set_getElem?_not_mem v rest _ i hr]
      exact List.getElem?_set_self hlen

/-- The frame slice of the pipeline result is the fold of the per-slot
frame writes alone. -/
theorem runPipeline_image (fs : String → JpegFile) (quantize : OtherImage → Paletted)
    (delayMs : Nat) (paths : List String) (order : List Nat) :
    (runPipeline fs quantize delayMs paths order).image =
      order.foldl (fun a j => a.set j (processJpeg fs quantize (paths.getD j "")))
        (List.replicate paths.length none) := by
  suffices h : ∀ g : GifInfo,
      (order.foldl (taskBody fs quantize delayMs paths) g).image =
        order.foldl (fun a j => a.set j (processJpeg fs quantize (paths.getD j "")))
          g.image from h (initGifInfo paths.length)
  induction order with
  | nil => intro g; rfl
  | cons j rest ih => intro g; rw [List.foldl_cons, List.foldl_cons, ih]; rfl

/-- The delay slice of the pipeline result is the fold of the per-slot
delay writes alone. -/
theorem runPipeline_delay (fs : String → JpegFile) (quantize : OtherImage → Paletted)
    (delayMs : Nat) (paths : List String) (order : List Nat) :
    (runPipeline fs quantize delayMs paths order).delay =
      order.foldl (fun a j => a.set j (delayMs / 10))
        (List.replicate paths.length 0) := by
  suffices h : ∀ g : GifInfo,
      (order.foldl (taskBody fs quantize delayMs paths) g).delay =
        order.foldl (fun a j => a.set j (delayMs / 10)) g.delay from
    h (initGifInfo paths.length)
  induction order with
  | nil => intro g; rfl
  | cons j rest ih => intro g; rw [List.foldl_cons, List.foldl_cons, ih]; rfl

/-- Shared slot lemma: for any completion order that is a permutation of
the task indices, slot i of the final frame sequence holds the decode
result of path i. -/
theorem pipeline_frame_slot (fs : String → JpegFile)
    (quantize : OtherImage → Paletted) (delayMs : Nat) (paths : List String)
    (order : List Nat) (hperm : order.Perm (List.range paths.length))
    (i : Nat) (hi : i < paths.length) :
    (runPipeline fs quantize delayMs paths order).image[i]? =
      some (processJpeg fs quantize (paths.getD i "")) := by
  rw [runPipeline_image]
  exact foldl_set_getElem?_mem _ order _ i (by simpa using hi)
    (hperm.mem_iff.mpr (List.mem_range.mpr hi))

/-- Claim C1: for every completion order of the concurrent tasks (any
permutation of the task indices), slot i of the final frame sequence holds
exactly the decode result of the i-th discovered path, nil (none) when
that decode failed; hence the final frame order equals the path-collector
order regardless of which task finishes first. -/
theorem frame_order_matches_paths (fs : String → JpegFile)
    (quantize : OtherImage → Paletted) (delayMs : Nat) (paths : List String)
    (order : List Nat) (hperm : order.Perm (List.range paths.length)) :
    ∀ i, i < paths.length →
      (runPipeline fs quantize delayMs paths order).image[i]? =
        some (processJpeg fs quantize (paths.getD i "")) :=
  fun i hi => pipeline_frame_slot fs quantize delayMs paths order hperm i hi

/-- Concrete quantizer standing in for the external median-cut
implementation in witnesses. -/
def quantW : OtherImage → Paletted := fun o => ⟨[], 0, o.rect, []⟩

/-- Concrete file-system environment for witnesses: one decodable JPEG and
one corrupt file. -/
def fsW : String → JpegFile := fun p =>
  if p = "a.jpg" then JpegFile.ok (Image.paletted ⟨[0], 1, (0, 0, 1, 1), [(1, 2, 3, 255)]⟩)
  else JpegFile.decodeErr

/-- Witness for frame_order_matches_paths: a two-path run whose second
task completes first still stores the first decode result at slot 0. -/
theorem frame_order_matches_paths_witness :
    (runPipeline fsW quantW 100 ["a.jpg", "b.jpg"] [1, 0]).image[0]? =
      some (processJpeg fsW quantW "a.jpg") :=
  frame_order_matches_paths fsW quantW 100 ["a.jpg", "b.jpg"] [1, 0]
    (by decide) 0 (by decide)

/-- Claim C3: after the pipeline completes, the frame container, the delay
container and the discovered path list have equal length, and a decode
failure leaves the nil placeholder at its own slot while every other slot
still holds the decode result of its own path, so no index is shifted or
removed. -/
theorem frame_delay_length_invariant (fs : String → JpegFile)
    (quantize : OtherImage → Paletted) (delayMs : Nat) (paths : List String)
    (order : List Nat) (hperm : order.Perm (List.range paths.length)) :
    (runPipeline fs quantize delayMs paths order).image.length = paths.length ∧
    (runPipeline fs quantize delayMs paths order).delay.length = paths.length ∧
    (∀ i, i < paths.length →
      (fs (paths.getD i "") = JpegFile.openErr ∨
       fs (paths.getD i "") = JpegFile.decodeErr) →
      (runPipeline fs quantize delayMs paths order).image[i]? = some none) ∧
    (∀ i, i < paths.length →
      (runPipeline fs quantize delayMs paths order).image[i]? =
        some (processJpeg fs quantize (paths.getD i ""))) := by
  refine ⟨?_, ?_, ?_, fun i hi => pipeline_frame_slot fs quantize delayMs paths order hperm i hi⟩
  · rw [runPipeline_image]
    rw [foldl_set_length]
    exact List.length_replicate paths.length none
  · rw [runPipeline_delay]
    rw [foldl_set_length]
    exact List.length_replicate paths.length 0
  · intro i hi hfail
    rw [pipeline_frame_slot fs quantize delayMs paths order hperm i hi]
    have hnone : processJpeg fs quantize (paths.getD i "") = none := by
      unfold processJpeg
      rcases hfail with h | h <;> rw [h]
    rw [hnone]

/-- Witness for frame_delay_length_invariant: two paths, the second decode
fails, run with reversed completion order; lengths are 2 and slot 1 holds
the nil placeholder. -/
theorem frame_delay_length_invariant_witness :
    (runPipeline fsW quantW 100 ["a.jpg", "b.jpg"] [1, 0]).image.length = 2 ∧
    (runPipeline fsW quantW 100 ["a.jpg", "b.jpg"] [1, 0]).delay.length = 2 ∧
    (runPipeline fsW quantW 100 ["a.jpg", "b.jpg"] [1, 0]).image[1]? = some none := by
  have h := frame_delay_length_invariant fsW quantW 100 ["a.jpg", "b.jpg"] [1, 0]
    (by decide)
  exact ⟨h.1, h.2.1, h.2.2.1 1 (by decide) (Or.inr (by decide))⟩

/-- Claim C7: every frame delay slot receives the single uniform value
delayMs / 10 (integer division, hundredths of a second), for every
completion order. -/
theorem uniform_delay_ticks (fs : String → JpegFile)
    (quantize : OtherImage → Paletted) (delayMs : Nat) (paths : List String)
    (order : List Nat) (hperm : order.Perm (List.range paths.length)) :
    ∀ i, i < paths.length →
      (runPipeline fs quantize delayMs paths order).delay[i]? =
        some (delayMs / 10) := by
  intro i hi
  rw [runPipeline_delay]
  exact foldl_set_getElem?_mem _ order _ i (by simpa using hi)
    (hperm.mem_iff.mpr (List.mem_range.mpr hi))

/-- Witness for uniform_delay_ticks: with the default 100 ms delay every
slot holds 10 hundredths of a second. -/
theorem uniform_delay_ticks_witness :
    (runPipeline fsW quantW 100 ["a.jpg", "b.jpg"] [1, 0]).delay[0]? = some 10 ∧
    (runPipeline fsW quantW 100 ["a.jpg", "b.jpg"] [1, 0]).delay[1]? = some 10 :=
  ⟨uniform_delay_ticks fsW quantW 100 ["a.jpg", "b.jpg"] [1, 0] (by decide) 0 (by decide),
   uniform_delay_ticks fsW quantW 100 ["a.jpg", "b.jpg"] [1, 0] (by decide) 1 (by decide)⟩

/-- Phase of one worker goroutine (main.go lines 156-173): spawned but not
yet past sem.Acquire, inside the decode-and-quantize region holding one
semaphore unit, or finished after the deferred sem.Release ran. -/
inductive TaskPhase where
  | pending
  | decoding
  | finished
deriving DecidableEq

/-- Shared concurrency state: the number of free units of the weighted
semaphore plus the phase of every spawned task. -/
structure SemState where
  sem : Nat
  tasks : List TaskPhase
deriving DecidableEq

/-- Number of tasks currently inside the decode-and-quantize region. -/
def inRegionCount (s : SemState) : Nat :=
  s.tasks.countP (fun t => decide (t = TaskPhase.decoding))

/-- Initial state of main.go lines 141-155: semaphore.NewWeighted with the
full budget of units and one goroutine spawned per path, none having
acquired yet. -/
def semInit (budget ntasks : Nat) : SemState :=
  ⟨budget, List.replicate ntasks TaskPhase.pending⟩

/-- Interleaving semantics of the worker goroutines. Acquire blocks until
a unit is free (so it only fires with sem positive) and enters the decode
region; release fires when leaving the region on either exit path, the
Boolean recording whether processJpeg succeeded or failed — the released
state does not depend on it, mirroring the deferred unconditional
sem.Release(1). -/
inductive SemStep : SemState → SemState → Prop where
  | acquire (s : SemState) (i : Nat) (hi : s.tasks[i]? = some TaskPhase.pending)
      (hsem : 0 < s.sem) :
      SemStep s ⟨s.sem - 1, s.tasks.set i TaskPhase.decoding⟩
  | release (s : SemState) (i : Nat) (decodeOk : Bool)
      (hi : s.tasks[i]? = some TaskPhase.decoding) :
      SemStep s ⟨s.sem + 1, s.tasks.set i TaskPhase.finished⟩

/-- Reachability of a concurrency state from the initial state by any
interleaving of acquire and release steps. -/
def SemReachable (budget ntasks : Nat) (s : SemState) : Prop :=
  Relation.ReflTransGen SemStep (semInit budget ntasks) s

/-- Writing one slot of a list shifts countP by the contribution of the
old and new element. -/
theorem countP_set (p : α → Bool) :
    ∀ (l : List α) (i : Nat) (a b : α), l[i]? = some a →
      (l.set i b).countP p + (if p a then 1 else 0) =
        l.countP p + (if p b then 1 else 0)
  | [], i, _, _, h => by simp at h
  | c :: t, 0, a, b, h => by
    have hac : a = c := by simpa using h.symm
    subst hac
    simp [List.countP_cons]
    omega
  | c :: t, i + 1, a, b, h => by
    have ht : t[i]? = some a := by simpa using h
    have ih := countP_set p t i a b ht
    simp [List.countP_cons]
    omega

/-- countP of a replicated list is all or nothing. -/
theorem countP_replicate (p : α → Bool) (n : Nat) (a : α) :
    (List.replicate n a).countP p = if p a then n else 0 := by
  induction n with
  | zero => simp
  | succ m ih => simp [List.replicate_succ, List.countP_cons, ih]; split <;> omega

/-- Claim C9: in every reachable state of the pipeline, the free semaphore
units plus the tasks inside the decode-and-quantize region equal the
worker budget exactly (no unit is ever lost, i.e. every exit path —
decode success or failure — returns its unit), and consequently at most
workerBudget tasks are inside the region simultaneously. -/
theorem semaphore_bound_invariant (budget ntasks : Nat) (s : SemState)
    (h : SemReachable budget ntasks s) :
    s.sem + inRegionCount s = budget ∧ inRegionCount s ≤ budget := by
  suffices hinv : s.sem + inRegionCount s = budget from ⟨hinv, by omega⟩
  induction h with
  | refl =>
    simp [semInit, inRegionCount, countP_replicate]
  | @tail b c _hsteps hstep ih =>
    cases hstep with
    | acquire i hi hsem =>
      have hc := countP_set (fun t => decide (t = TaskPhase.decoding))
        b.tasks i TaskPhase.pending TaskPhase.decoding hi
      simp at hc
      simp only [inRegionCount] at ih ⊢
      omega
    | release i decodeOk hi =>
      have hc := countP_set (fun t => decide (t = TaskPhase.decoding))
        b.tasks i TaskPhase.decoding TaskPhase.finished hi
      simp at hc
      simp only [inRegionCount] at ih ⊢
      omega

/-- Witness for semaphore_bound_invariant: budget 2, three spawned tasks,
after task 0 acquires the semaphore one unit remains and one task is in
the region. -/
theorem semaphore_bound_invariant_witness :
    SemState.sem ⟨1, [TaskPhase.decoding, TaskPhase.pending, TaskPhase.pending]⟩ +
      inRegionCount ⟨1, [TaskPhase.decoding, TaskPhase.pending, TaskPhase.pending]⟩ = 2 ∧
    inRegionCount ⟨1, [TaskPhase.decoding, TaskPhase.pending, TaskPhase.pending]⟩ ≤ 2 :=
  semaphore_bound_invariant 2 3
    ⟨1, [TaskPhase.decoding, TaskPhase.pending, TaskPhase.pending]⟩
    (Relation.ReflTransGen.single
      (SemStep.acquire (semInit 2 3) 0 (by decide) (by decide)))

/-- Result of the pre-run os.Stat on the output path (main.go line 91):
the stat succeeded (the file exists), failed with a not-exist error, or
failed with some other error (for example permission denied on a
containing directory). -/
inductive StatResult where
  | ok
  | errNotExist
  | errOther
deriving DecidableEq

/-- Model of os.IsNotExist applied to the stat error: true exactly for the
not-exist error; in particular false for a nil error. -/
def isNotExist : StatResult → Bool
  | StatResult.errNotExist => true
  | _ => false

/-- Result of the filepath.Walk call as observed by main (main.go lines
111-129): either the collected path list or a non-nil returned error. -/
inductive WalkResult where
  | ok (paths : List String)
  | err
deriving DecidableEq

/-- Outcome of a run of main (main.go lines 86-189), one constructor per
early return plus the terminal stage. The openedOutput outcome means
execution reached os.OpenFile on the output path with O_CREATE (main.go
line 178), i.e. the output file was created, carrying the assembled gif
structure handed to gif.EncodeAll. -/
inductive MainOutcome where
  | versionPrinted
  | abortOutputExists
  | abortUsage
  | abortWrongArgs
  | abortWalkError
  | abortNoInput
  | openedOutput (g : GifInfo)
deriving DecidableEq

/-- Embedding of the control flow of main (main.go lines 86-189) over an
abstract environment: the version flag, the stat result on the output
path, the number of positional arguments, the walk result, and the
decode environment. The pipeline is run in the canonical index order;
by frame_order_matches_paths every interleaving yields the same frame
sequence slot for slot. -/
def mainModel (version : Bool) (stat : StatResult) (nargs : Nat)
    (walk : WalkResult) (fs : String → JpegFile)
    (quantize : OtherImage → Paletted) (delayMs : Nat) : MainOutcome :=
  if version then MainOutcome.versionPrinted
  else if ! isNotExist stat then MainOutcome.abortOutputExists
  else if nargs = 0 then MainOutcome.abortUsage
  else if 1 < nargs then MainOutcome.abortWrongArgs
  else
    match walk with
    | WalkResult.err => MainOutcome.abortWalkError
    | WalkResult.ok paths =>
      if paths.length = 0 then MainOutcome.abortNoInput
      else
        MainOutcome.openedOutput
          (runPipeline fs quantize delayMs paths (List.range paths.length))

/-- Flag constants of the os package on linux as used at main.go line
178. -/
def O_WRONLY : Nat := 1

/-- Create flag constant of the os package on linux. -/
def O_CREATE : Nat := 64

/-- Exclusive-creation flag constant of the os package on linux. -/
def O_EXCL : Nat := 128

/-- Flags passed to os.OpenFile for the output destination (main.go line
178): O_CREATE combined with O_WRONLY. -/
def outputOpenFlags : Nat := O_CREATE ||| O_WRONLY

/-- Success of open(2) as invoked by os.OpenFile with respect to prior
existence of the target: on an existing file the call fails only when
O_CREATE and O_EXCL are both set; on a missing file it succeeds exactly
when O_CREATE is set (creating the file). -/
def openSucceeds (flags : Nat) (fileExists : Bool) : Bool :=
  if fileExists then ! (flags &&& O_CREATE != 0 && flags &&& O_EXCL != 0)
  else flags &&& O_CREATE != 0

/-- Claim C4 counterexample: the output destination is not opened
exclusively — the flags at main.go line 178 omit O_EXCL, so the open
succeeds even when the output file already exists, contrary to the claim
that the open itself fails in that case. -/
theorem open_succeeds_on_existing_output :
    openSucceeds outputOpenFlags true = true := by decide

/-- Claim C4 as amended: when the pre-run status check reports the output
path already exists, the run aborts immediately, before the walk and
before any decode work (the outcome is independent of the walk result and
of the decode environment); the later open of the output destination,
however, carries no exclusive-creation flag, so that open by itself
succeeds on an existing file. -/
theorem output_exists_precheck_aborts :
    (∀ (nargs : Nat) (walk : WalkResult) (fs : String → JpegFile)
      (quantize : OtherImage → Paletted) (delayMs : Nat),
      mainModel false StatResult.ok nargs walk fs quantize delayMs =
        MainOutcome.abortOutputExists) ∧
    outputOpenFlags &&& O_EXCL = 0 := by
  refine ⟨?_, by decide⟩
  intro nargs walk fs quantize delayMs
  rfl

/-- Claim C6: when the walk finds zero eligible JPEG files, the run
reports the no-input condition and stops before the output file is
opened or created, for every decode environment and delay. -/
theorem no_input_aborts_without_output :
    ∀ (fs : String → JpegFile) (quantize : OtherImage → Paletted) (delayMs : Nat),
      mainModel false StatResult.errNotExist 1 (WalkResult.ok []) fs quantize delayMs =
        MainOutcome.abortNoInput ∧
      ∀ g : GifInfo,
        mainModel false StatResult.errNotExist 1 (WalkResult.ok []) fs quantize delayMs ≠
          MainOutcome.openedOutput g := by
  intro fs quantize delayMs
  exact ⟨rfl, fun g h => MainOutcome.noConfusion h⟩

/-- Claim C10: a stat failure other than not-exist aborts the run exactly
like an existing output file — the outcome is abortOutputExists, the same
outcome as when the stat succeeds because the file is present — and the
run proceeds past the check only on a definite not-exist result. -/
theorem stat_gate_only_not_exist_proceeds :
    ∀ (stat : StatResult) (nargs : Nat) (walk : WalkResult)
      (fs : String → JpegFile) (quantize : OtherImage → Paletted) (delayMs : Nat),
      mainModel false StatResult.errOther nargs walk fs quantize delayMs =
        mainModel false StatResult.ok nargs walk fs quantize delayMs ∧
      (mainModel false stat nargs walk fs quantize delayMs =
          MainOutcome.abortOutputExists ↔ stat ≠ StatResult.errNotExist) := by
  intro stat nargs walk fs quantize delayMs
  constructor
  · rfl
  · constructor
    · intro h hstat
      subst hstat
      revert h
      unfold mainModel
      simp only [isNotExist, Bool.not_true, if_neg]
      split
      · intro h; exact MainOutcome.noConfusion h
      · split
        · intro h; exact MainOutcome.noConfusion h
        · split
          · intro h; exact MainOutcome.noConfusion h
          · cases walk with
            | err => intro h; exact MainOutcome.noConfusion h
            | ok paths =>
              simp only
              split
              · intro h; exact MainOutcome.noConfusion h
              · intro h; exact MainOutcome.noConfusion h
    · intro h
      cases stat with
      | ok => rfl
      | errNotExist => exact absurd rfl h
      | errOther => rfl

/-- Claim C2: evaluation of main at a run with one valid and one corrupt
JPEG. The claim states that a decode failure makes the run abort without
writing any output file; the embedded control flow instead reaches the
openedOutput stage — os.OpenFile with O_CREATE creates the output file —
carrying a frame sequence with a nil slot, which gif.EncodeAll then
dereferences. -/
theorem decode_failure_still_opens_output :
    mainModel false StatResult.errNotExist 1 (WalkResult.ok ["a.jpg", "b.jpg"])
        fsW quantW 100 =
      MainOutcome.openedOutput
        ⟨[some ⟨[0], 1, (0, 0, 1, 1), [(1, 2, 3, 255)]⟩, none], [10, 10]⟩ := by
  decide

/-- Single character scan implementing filepath.Ext: the input is the
reversed path; the accumulator collects the characters read so far in
original order. A dot yields the extension, a path separator or the start
of the string yields the empty extension. -/
def extSearch : List Char → List Char → List Char
  | [], _ => []
  | c :: rest, acc =>
    if c = '.' then '.' :: acc
    else if c = '/' then []
    else extSearch rest (c :: acc)

/-- Model of filepath.Ext: the suffix of the final path element starting
at its final dot, empty when there is none. -/
def filepathExt (path : String) : List Char :=
  extSearch path.toList.reverse []

/-- Model of the strings.TrimPrefix call at main.go line 116 with the dot
as the leading string to strip. -/
def trimLeadingDot : List Char → List Char
  | '.' :: rest => rest
  | l => l

/-- ASCII case folding of one character, as a code point. -/
def lowerNat (c : Char) : Nat :=
  if 65 ≤ c.toNat && c.toNat ≤ 90 then c.toNat + 32 else c.toNat

/-- Model of strings.EqualFold restricted to the ASCII alphabet:
character-wise case-insensitive equality. -/
def equalFold : List Char → List Char → Bool
  | [], [] => true
  | x :: xs, y :: ys => lowerNat x == lowerNat y && equalFold xs ys
  | _, _ => false

/-- Extension filter of the walk callback (main.go lines 116-117):
case-insensitive comparison of the trimmed extension against jpg and
jpeg. -/
def isJpegExt (path : String) : Bool :=
  let extension := trimLeadingDot (filepathExt path)
  equalFold extension ['j', 'p', 'g'] || equalFold extension ['j', 'p', 'e', 'g']

/-- The part of os.FileInfo consulted by the walk callback. -/
structure FileInfo where
  isDir : Bool
deriving DecidableEq

/-- Observable behavior of one callback invocation: either the callback
panics, or it returns an error value together with the updated collected
path list. -/
inductive CallbackOutcome where
  | panicked
  | ret (acc : List String) (err : Option Unit)
deriving DecidableEq

/-- Embedding of the anonymous walk callback (main.go lines 111-124). The
source ignores the incoming err argument and immediately calls
info.IsDir(); filepath.Walk passes a nil info whenever an lstat fails, and
calling IsDir on the nil interface value panics, modelled by the panicked
outcome. Otherwise directories are skipped, non-JPEG files are skipped,
and eligible paths are appended to imgPaths; the callback always returns
nil. -/
def walkCallback (acc : List String) (path : String) (info : Option FileInfo)
    (_err : Option Unit) : CallbackOutcome :=
  match info with
  | none => CallbackOutcome.panicked
  | some fi =>
    if fi.isDir then CallbackOutcome.ret acc none
    else if ! isJpegExt path then CallbackOutcome.ret acc none
    else CallbackOutcome.ret (acc ++ [path]) none

/-- Modelled file-system tree under the walk root. lstatOk false on an
entry means os.Lstat fails for it (for example a permission-denied or
vanished entry); readable false on a directory means reading its entry
list fails. -/
inductive FsEntry where
  | file (name : String) (lstatOk : Bool)
  | dir (name : String) (lstatOk : Bool) (readable : Bool) (children : List FsEntry)

/-- Name of a tree entry. -/
def entryName : FsEntry → String
  | FsEntry.file n _ => n
  | FsEntry.dir n _ _ _ => n

/-- Whether os.Lstat succeeds on the entry. -/
def entryLstatOk : FsEntry → Bool
  | FsEntry.file _ ok => ok
  | FsEntry.dir _ ok _ _ => ok

/-- Result of the modelled walk: a panic escaping from the callback, or
the collected paths together with the error filepath.Walk returns. -/
inductive WalkRes where
  | panicked
  | ret (acc : List String) (err : Option Unit)
deriving DecidableEq

mutual

/-- Model of the recursive walk function of path/filepath for one entry
whose lstat succeeded: a non-directory is reported to the callback with a
nil error; for a directory the callback receives the error of reading the
entry list, and when either that read failed or the callback returned an
error the directory is not descended into. -/
def walkEntry (acc : List String) (path : String) : FsEntry → WalkRes
  | FsEntry.file _ _ =>
    match walkCallback acc path (some ⟨false⟩) none with
    | CallbackOutcome.panicked => WalkRes.panicked
    | CallbackOutcome.ret acc1 err1 => WalkRes.ret acc1 err1
  | FsEntry.dir _ _ readable children =>
    match walkCallback acc path (some ⟨true⟩)
        (if readable then none else some ()) with
    | CallbackOutcome.panicked => WalkRes.panicked
    | CallbackOutcome.ret acc1 err1 =>
      if ! readable || err1.isSome then WalkRes.ret acc1 err1
      else walkChildren acc1 path children

/-- Model of the loop over the names of a directory: each child is
lstat-ed first; on lstat failure the callback is invoked with a nil
FileInfo (which panics in this program), otherwise the walk recurses into
the child, and a returned error stops the loop. -/
def walkChildren (acc : List String) (path : String) : List FsEntry → WalkRes
  | [] => WalkRes.ret acc none
  | e :: rest =>
    if entryLstatOk e then
      match walkEntry acc (path ++ "/" ++ entryName e) e with
      | WalkRes.panicked => WalkRes.panicked
      | WalkRes.ret acc1 err1 =>
        if err1.isSome then WalkRes.ret acc1 err1
        else walkChildren acc1 path rest
    else
      match walkCallback acc (path ++ "/" ++ entryName e) none (some ()) with
      | CallbackOutcome.panicked => WalkRes.panicked
      | CallbackOutcome.ret acc1 err1 =>
        if err1.isSome then WalkRes.ret acc1 err1
        else walkChildren acc1 path rest

end

/-- Embedding of the filepath.Walk call at main.go line 111: when lstat on
the root itself fails (root missing or inaccessible) the callback is
invoked once with a nil FileInfo; otherwise the recursive walk runs over
the root entry. -/
def filepathWalk (root : String) (rootLstatOk : Bool) (tree : FsEntry) : WalkRes :=
  if rootLstatOk then walkEntry [] root tree
  else
    match walkCallback [] root none (some ()) with
    | CallbackOutcome.panicked => WalkRes.panicked
    | CallbackOutcome.ret acc err => WalkRes.ret acc err

/-- Claim C5: evaluation of the path-collection walk at the inputs the
claim describes. A missing root makes the callback panic on the nil
FileInfo instead of producing a reported walk error; a deeper file whose
lstat fails also panics, aborting the whole walk; an unreadable root
directory yields a nil error and zero collected paths rather than a walk
error; only the unreadable-subdirectory case behaves as claimed, skipping
the subtree and continuing with its siblings. -/
theorem walk_nil_info_panics :
    filepathWalk "missing" false (FsEntry.dir "missing" false true []) =
      WalkRes.panicked ∧
    filepathWalk "d" true
        (FsEntry.dir "d" true true [FsEntry.file "a.jpg" false]) =
      WalkRes.panicked ∧
    filepathWalk "d" true (FsEntry.dir "d" true false []) =
      WalkRes.ret [] none ∧
    filepathWalk "d" true
        (FsEntry.dir "d" true true
          [FsEntry.dir "sub" true false [FsEntry.file "x.jpg" true],
           FsEntry.file "b.jpg" true]) =
      WalkRes.ret ["d/b.jpg"] none := by
  decide

end Giffer
